import Mathlib

/-!
# Verification of `src/pages/index.js` (roll-the-dice)

A shallow embedding of the game-root component's state and state
transitions. The component is single-threaded and event-driven; every
state transition is a plain function from the current state (plus the
event's payload and the random draws consumed) to the next state.

Randomness: every call to `Math.floor(Math.random() * 6)` is modelled by
drawing an arbitrary natural number from a supplied entropy function and
reducing it `% 6`, which makes the 0..5 range of face values intrinsic.

JS numeric details that matter here:
* `maxRolls` is either `Infinity` or a finite integer, modelled by the
  inductive `MaxRolls`; `currentRoll >= Infinity` is false for every
  finite `currentRoll`.
* `customMaxRolls` holds a JS number coming from `Number(input.value)`;
  we model it as `Option Int` where `none` stands for `NaN` and `some v`
  for the integer value `v` (the model is restricted to integer-valued
  inputs, which is all the claims exercise). `parseInt` of such a value
  returns the value itself (or `NaN` for `NaN`), and `x || 10` replaces
  the falsy results `NaN` and `0` by `10` and keeps everything else,
  negatives included.
-/

/-- One die: `{ id, value }`, with `value` a face index 0..5. -/
structure Die where
  id : Nat
  value : Nat
deriving Repr, DecidableEq

/-- The `maxRolls` state: `Infinity` or a finite integer. -/
inductive MaxRolls where
  | inf : MaxRolls
  | fin (n : Int) : MaxRolls
deriving Repr, DecidableEq

/-- The `maxRollsSelection` state; the dropdown offers exactly the two
string values `'3'` and `'other'`. -/
inductive Sel where
  | three : Sel
  | other : Sel
deriving Repr, DecidableEq

/-- The complete state of the `App` component: one field per `useState`
hook (the transient per-dropdown open flags of `StyledSelect` are local
to that presentational component and are not game state). -/
structure GameState where
  numDice : Nat
  dice : List Die
  frozenIds : Finset Nat
  currentRoll : Nat
  maxRolls : MaxRolls
  isRolling : Bool
  draggedId : Option Nat
  dragOverId : Option Nat
  score : Nat
  theme : String
  showOptions : Bool
  limitEnabled : Bool
  maxRollsSelection : Sel
  customMaxRolls : Option Int
deriving DecidableEq

/-- JS `calculateScore`: `currentDice.reduce((sum, d) => sum + d.value + 1, 0)`.
The JS function stores the result via `setScore`; we return it and let
each caller store it. -/
def calculateScore (currentDice : List Die) : Nat :=
  currentDice.foldl (fun sum d => sum + d.value + 1) 0

/-- JS `parseInt(customMaxRolls) || 10`: `NaN` (`none`) and `0` are falsy
and fall back to `10`; every other integer, negative or positive, is
kept. -/
def parseIntOr10 : Option Int → Int
  | none => 10
  | some v => if v = 0 then 10 else v

/-- The `newMaxRolls` computation at the top of `startNewGame`. -/
def newMaxRolls (limitEnabled : Bool) (sel : Sel) (custom : Option Int) : MaxRolls :=
  if limitEnabled then
    MaxRolls.fin (match sel with
      | Sel.other => parseIntOr10 custom
      | Sel.three => 3)
  else MaxRolls.inf

/-- JS `startNewGame`: computes `newMaxRolls`, builds
`Array.from({length: numDice}, (_, i) => ({id: i, value: rand}))`,
clears the frozen set, resets the roll counter, clears `isRolling` and
stores the score of the fresh dice. `e i` is the entropy drawn for die
`i`. -/
def startNewGame (s : GameState) (e : Nat → Nat) : GameState :=
  let initialDice := (List.range s.numDice).map (fun i => Die.mk i (e i % 6))
  { s with
    maxRolls := newMaxRolls s.limitEnabled s.maxRollsSelection s.customMaxRolls
    dice := initialDice
    frozenIds := ∅
    currentRoll := 0
    isRolling := false
    score := calculateScore initialDice }

/-- The guard `currentRoll >= maxRolls` at the top of `rollDice`
(`n >= Infinity` is false for every finite `n`). -/
def rollBlocked (s : GameState) : Bool :=
  match s.maxRolls with
  | MaxRolls.inf => false
  | MaxRolls.fin m => m ≤ (s.currentRoll : Int)

/-- One `.map(d => frozenIds.has(d.id) ? d : { ...d, value: rand })`
pass, drawing entropy `e i` for the die at position `i` (counting from
`i0`). -/
def rerandomAux (frozen : Finset Nat) (e : Nat → Nat) : Nat → List Die → List Die
  | _, [] => []
  | i, d :: ds =>
      (if d.id ∈ frozen then d else Die.mk d.id (e i % 6)) :: rerandomAux frozen e (i + 1) ds

/-- Re-randomize every non-frozen die of `ds`. -/
def rerandom (frozen : Finset Nat) (e : Nat → Nat) (ds : List Die) : List Die :=
  rerandomAux frozen e 0 ds

/-- The dice shown after `i` ticks of the 80ms `setInterval`: `tempDice`
starts as a copy of the pre-roll dice and each tick re-randomizes the
non-frozen dice of the previous tick's result. `E i` is the entropy of
tick `i`. -/
def rollFrames (frozen : Finset Nat) (E : Nat → Nat → Nat) (ds : List Die) : Nat → List Die
  | 0 => ds
  | i + 1 => rerandom frozen (E i) (rollFrames frozen E ds i)

/-- The `setTimeout` completion callback of `rollDice`. `snapshot` and
`frozen` are the closure captures of `dice` and `frozenIds` from the
render in which `rollDice` ran; `s` is the component state at the moment
the timeout fires. The callback computes
`finalDice = dice.map(...)` from the captured `snapshot` — not from
`s.dice` — then stores it, stores its score, and clears `isRolling`. -/
def rollComplete (snapshot : List Die) (frozen : Finset Nat) (e : Nat → Nat)
    (s : GameState) : GameState :=
  let finalDice := rerandom frozen e snapshot
  { s with dice := finalDice, score := calculateScore finalDice, isRolling := false }

/-- JS `rollDice`, one whole roll run to completion: the guard; the
synchronous `setIsRolling(true)` and `setCurrentRoll(prev => prev + 1)`;
`k` interval ticks of cosmetic re-randomization (entropy `E`); and the
timeout completion (entropy `e`) applied to the mid-roll state, using
the pre-roll `dice`/`frozenIds` captures. -/
def rollDice (s : GameState) (k : Nat) (E : Nat → Nat → Nat) (e : Nat → Nat) : GameState :=
  if rollBlocked s then s
  else
    let started := { s with isRolling := true, currentRoll := s.currentRoll + 1 }
    let mid := { started with dice := rollFrames s.frozenIds E s.dice k }
    rollComplete s.dice s.frozenIds e mid

/-- JS `toggleFreeze(id)`: no-op while rolling or before the first roll;
otherwise flips membership of `id` in the frozen set. -/
def toggleFreeze (s : GameState) (id : Nat) : GameState :=
  if s.isRolling || s.currentRoll == 0 then s
  else
    { s with frozenIds :=
        if id ∈ s.frozenIds then s.frozenIds.erase id else insert id s.frozenIds }

/-- JS `handleDragStart(id)`. -/
def handleDragStart (s : GameState) (id : Nat) : GameState :=
  { s with draggedId := some id }

/-- JS `handleDragEnd()`: clears both transient drag references. -/
def handleDragEnd (s : GameState) : GameState :=
  { s with draggedId := none, dragOverId := none }

/-- JS `handleDragEnter(id)`: records the drop target unless it is the
drag source itself. -/
def handleDragEnter (s : GameState) (id : Nat) : GameState :=
  if s.draggedId ≠ some id then { s with dragOverId := some id } else s

/-- JS `dice.findIndex(d => d.id === id)`: the index of the first die with
the given id, or `-1`. -/
def jsFindIndex (ds : List Die) (id : Nat) : Int :=
  match ds.findIdx? (fun d => d.id == id) with
  | some i => (i : Int)
  | none => -1

/-- JS `Array.prototype.splice`'s index normalization: a negative `start`
counts from the end (clamped at `0`), a non-negative one is clamped at
`length`. -/
def jsSpliceIndex (len : Nat) (start : Int) : Nat :=
  if start < 0 then len - (-start).toNat else min start.toNat len

/-- JS `list.splice(start, 1)`: removes (at most) one element at the
normalized index and returns the remaining list together with the
removed element, `none` when nothing was removed (possible only when
the normalized index is past the end). -/
def jsSpliceRemove1 (ds : List Die) (start : Int) : List Die × Option Die :=
  let i := jsSpliceIndex ds.length start
  (ds.take i ++ ds.drop (i + 1), ds[i]?)

/-- JS `list.splice(start, 0, item)`: inserts `item` at the normalized
index. -/
def jsSpliceInsert (ds : List Die) (start : Int) (item : Die) : List Die :=
  let i := jsSpliceIndex ds.length start
  ds.take i ++ item :: ds.drop i

/-- JS `handleDrop(targetId)`: no-op (beyond clearing the drag state) when
there is no drag source or the target is the source; otherwise
splice-remove the dragged die and splice-insert it at the target's
pre-removal index. When the removal returns nothing (`dice` empty, so
`draggedItem` is `undefined`) JS would splice `undefined` into the
array; we model that degenerate frame as inserting nothing. -/
def handleDrop (s : GameState) (targetId : Nat) : GameState :=
  match s.draggedId with
  | none => handleDragEnd s
  | some dId =>
    if dId = targetId then handleDragEnd s
    else
      let draggedIndex := jsFindIndex s.dice dId
      let targetIndex := jsFindIndex s.dice targetId
      let removed := jsSpliceRemove1 s.dice draggedIndex
      let newDice := match removed.2 with
        | some item => jsSpliceInsert removed.1 targetIndex item
        | none => removed.1
      handleDragEnd { s with dice := newDice }

/-!
The `useEffect(() => { startNewGame(); }, [numDice, limitEnabled,
maxRollsSelection, customMaxRolls])` hook: a change of any of the four
option values is followed by a `startNewGame` run on the next render.
Each option setter below is therefore the state update composed with
`startNewGame`. `setTheme` and `setShowOptions` are not in the
dependency array and are plain state updates.
-/

/-- JS `setNumDice` followed by the option-change effect. -/
def setNumDice (s : GameState) (n : Nat) (e : Nat → Nat) : GameState :=
  startNewGame { s with numDice := n } e

/-- JS `setLimitEnabled` followed by the option-change effect. -/
def setLimitEnabled (s : GameState) (b : Bool) (e : Nat → Nat) : GameState :=
  startNewGame { s with limitEnabled := b } e

/-- JS `setMaxRollsSelection` followed by the option-change effect. -/
def setMaxRollsSelection (s : GameState) (sel : Sel) (e : Nat → Nat) : GameState :=
  startNewGame { s with maxRollsSelection := sel } e

/-- JS `setCustomMaxRolls` followed by the option-change effect. -/
def setCustomMaxRolls (s : GameState) (c : Option Int) (e : Nat → Nat) : GameState :=
  startNewGame { s with customMaxRolls := c } e

/-- JS `setTheme`: not an effect dependency; a pure presentation change. -/
def setTheme (s : GameState) (t : String) : GameState :=
  { s with theme := t }

/-- JS `setShowOptions`: not an effect dependency; a pure presentation
change. -/
def setShowOptions (s : GameState) (b : Bool) : GameState :=
  { s with showOptions := b }

/-- One user-level event, with the entropy its handler consumes. -/
inductive Op where
  | roll (k : Nat) (E : Nat → Nat → Nat) (e : Nat → Nat)
  | freeze (id : Nat)
  | dragStart (id : Nat)
  | dragEnter (id : Nat)
  | dragEnd
  | drop (targetId : Nat)
  | newGame (e : Nat → Nat)
  | chNumDice (n : Nat) (e : Nat → Nat)
  | chLimitEnabled (b : Bool) (e : Nat → Nat)
  | chMaxRollsSelection (sel : Sel) (e : Nat → Nat)
  | chCustomMaxRolls (c : Option Int) (e : Nat → Nat)
  | chTheme (t : String)
  | chShowOptions (b : Bool)

/-- Apply one event to the state. -/
def applyOp (s : GameState) : Op → GameState
  | Op.roll k E e => rollDice s k E e
  | Op.freeze id => toggleFreeze s id
  | Op.dragStart id => handleDragStart s id
  | Op.dragEnter id => handleDragEnter s id
  | Op.dragEnd => handleDragEnd s
  | Op.drop targetId => handleDrop s targetId
  | Op.newGame e => startNewGame s e
  | Op.chNumDice n e => setNumDice s n e
  | Op.chLimitEnabled b e => setLimitEnabled s b e
  | Op.chMaxRollsSelection sel e => setMaxRollsSelection s sel e
  | Op.chCustomMaxRolls c e => setCustomMaxRolls s c e
  | Op.chTheme t => setTheme s t
  | Op.chShowOptions b => setShowOptions s b

/-- Run a sequence of events. -/
def run (s : GameState) : List Op → GameState
  | [] => s
  | op :: ops => run (applyOp s op) ops

/-- Run a sequence of `rollDice` calls (each entry is one roll's tick
count and entropy). -/
def rollSeq (s : GameState) : List (Nat × (Nat → Nat → Nat) × (Nat → Nat)) → GameState
  | [] => s
  | (k, E, e) :: rest => rollSeq (rollDice s k E e) rest

/-- The value of the (first) die with the given id, if any. -/
def valueOf (ds : List Die) (id : Nat) : Option Nat :=
  (ds.find? (fun d => d.id == id)).map Die.value

/-- JS `currentRoll` does not exceed `maxRolls` (vacuous for `Infinity`). -/
def rollWithinLimit (s : GameState) : Bool :=
  match s.maxRolls with
  | MaxRolls.inf => true
  | MaxRolls.fin m => decide ((s.currentRoll : Int) ≤ m)

/-- The `maxRolls` value is `Infinity` or a non-negative integer. -/
def maxRollsNonneg : MaxRolls → Bool
  | MaxRolls.inf => true
  | MaxRolls.fin m => decide (0 ≤ m)

/-- The initial component state: the initial value of every `useState`
hook (`numDice` 5, `dice` `[]`, empty frozen set, `currentRoll` 0,
`maxRolls` `Infinity`, not rolling, no drag state, `score` 0, theme
`'Default'`, options panel closed, limit disabled, selection `'3'`,
`customMaxRolls` 10). -/
def initState : GameState :=
  { numDice := 5, dice := [], frozenIds := ∅, currentRoll := 0, maxRolls := MaxRolls.inf
    isRolling := false, draggedId := none, dragOverId := none, score := 0
    theme := "Default", showOptions := false, limitEnabled := false
    maxRollsSelection := Sel.three, customMaxRolls := some 10 }

/-- A game with two dice, die 1 frozen at value 4. -/
def exFrozen : GameState :=
  { initState with dice := [Die.mk 0 2, Die.mk 1 4], frozenIds := {1}, currentRoll := 1 }

/-- A configuration in which the user has enabled the roll limit,
selected `'Other...'` and typed `-5` into the custom field. -/
def negCustomState : GameState :=
  { initState with
    limitEnabled := true,
    maxRollsSelection := Sel.other,
    customMaxRolls := some (-5) }

/-- A three-dice state with die 0 being dragged. -/
def exDrag : GameState :=
  { initState with
    dice := [Die.mk 0 1, Die.mk 1 2, Die.mk 2 3],
    draggedId := some 0 }

/-- The stored score agrees with `calculateScore` of the stored dice. -/
def scoreInv (s : GameState) : Prop :=
  s.score = calculateScore s.dice

/-! ## Basic lemmas about re-randomization and rolling -/

theorem find?_rerandomAux (frozen : Finset Nat) (e : Nat → Nat) (id : Nat)
    (h : id ∈ frozen) :
    ∀ (ds : List Die) (i : Nat),
      (rerandomAux frozen e i ds).find? (fun d => d.id == id) =
        ds.find? (fun d => d.id == id) := by
  intro ds
  induction ds with
  | nil => intro i; rfl
  | cons d ds ih =>
    intro i
    by_cases hd : d.id ∈ frozen
    · simp only [rerandomAux, if_pos hd, List.find?_cons]
      cases hpd : (d.id == id)
      · simpa [hpd] using ih (i + 1)
      · simp [hpd]
    · rcases hpd : (d.id == id) with _ | _
      · simp only [rerandomAux, if_neg hd, List.find?_cons, hpd]
        simpa [hpd] using ih (i + 1)
      · have hdid : d.id = id := by simpa using hpd
        exact absurd (hdid ▸ h) hd

theorem valueOf_rerandom (frozen : Finset Nat) (e : Nat → Nat) (ds : List Die)
    (id : Nat) (h : id ∈ frozen) :
    valueOf (rerandom frozen e ds) id = valueOf ds id := by
  unfold valueOf rerandom
  rw [find?_rerandomAux frozen e id h]

theorem valueOf_rollFrames (frozen : Finset Nat) (E : Nat → Nat → Nat) (ds : List Die)
    (id : Nat) (h : id ∈ frozen) :
    ∀ i : Nat, valueOf (rollFrames frozen E ds i) id = valueOf ds id := by
  intro i
  induction i with
  | zero => rfl
  | succ i ih =>
    calc valueOf (rollFrames frozen E ds (i + 1)) id
        = valueOf (rollFrames frozen E ds i) id :=
          valueOf_rerandom frozen (E i) _ id h
      _ = valueOf ds id := ih

theorem rollDice_frozenIds (s : GameState) (k : Nat) (E : Nat → Nat → Nat) (e : Nat → Nat) :
    (rollDice s k E e).frozenIds = s.frozenIds := by
  unfold rollDice rollComplete
  split <;> rfl

theorem rollDice_dice (s : GameState) (k : Nat) (E : Nat → Nat → Nat) (e : Nat → Nat)
    (h : rollBlocked s = false) :
    (rollDice s k E e).dice = rerandom s.frozenIds e s.dice := by
  unfold rollDice rollComplete
  rw [if_neg (by simp [h])]

theorem valueOf_rollDice (s : GameState) (k : Nat) (E : Nat → Nat → Nat) (e : Nat → Nat)
    (id : Nat) (h : id ∈ s.frozenIds) :
    valueOf (rollDice s k E e).dice id = valueOf s.dice id := by
  cases hb : rollBlocked s
  · rw [rollDice_dice s k E e hb]
    exact valueOf_rerandom s.frozenIds e s.dice id h
  · unfold rollDice
    rw [if_pos hb]

theorem valueOf_rollSeq (s : GameState) (id : Nat) (h : id ∈ s.frozenIds) :
    ∀ rolls, valueOf (rollSeq s rolls).dice id = valueOf s.dice id := by
  intro rolls
  induction rolls generalizing s with
  | nil => rfl
  | cons r rest ih =>
    rcases r with ⟨k, E, e⟩
    have hfz : id ∈ (rollDice s k E e).frozenIds := by
      rw [rollDice_frozenIds]; exact h
    calc valueOf (rollSeq (rollDice s k E e) rest).dice id
        = valueOf (rollDice s k E e).dice id := ih (rollDice s k E e) hfz
      _ = valueOf s.dice id := valueOf_rollDice s k E e id h

/-! ## C1 -/

/-- C1: a die whose id is frozen at the start of a roll keeps its value
in every intermediate animation frame of the roll and in the roll's
final state, and this persists across any sequence of consecutive
rolls (rolling never touches the frozen set, so a frozen id stays
frozen). -/
theorem frozen_dice_never_change (s : GameState) (id : Nat) (h : id ∈ s.frozenIds) :
    (∀ (E : Nat → Nat → Nat) (i : Nat),
        valueOf (rollFrames s.frozenIds E s.dice i) id = valueOf s.dice id) ∧
    (∀ (k : Nat) (E : Nat → Nat → Nat) (e : Nat → Nat),
        valueOf (rollDice s k E e).dice id = valueOf s.dice id) ∧
    (∀ rolls, valueOf (rollSeq s rolls).dice id = valueOf s.dice id) :=
  ⟨fun E i => valueOf_rollFrames s.frozenIds E s.dice id h i,
   fun k E e => valueOf_rollDice s k E e id h,
   valueOf_rollSeq s id h⟩

/-- Witness for C1 at a concrete state: across two concrete rolls, the
frozen die 1 still reads value 4. -/
theorem frozen_dice_never_change_witness :
    valueOf (rollSeq exFrozen
        [(3, fun _ _ => 5, fun _ => 5), (2, fun _ _ => 1, fun _ => 2)]).dice 1
      = some 4 :=
  ((frozen_dice_never_change exFrozen 1 (by decide)).2.2
      [(3, fun _ _ => 5, fun _ => 5), (2, fun _ _ => 1, fun _ => 2)]).trans (by rfl)

/-! ## C2 and C3 -/

theorem rollDice_currentRoll_mono (s : GameState) (k : Nat) (E : Nat → Nat → Nat)
    (e : Nat → Nat) : s.currentRoll ≤ (rollDice s k E e).currentRoll := by
  unfold rollDice rollComplete
  split
  · exact Nat.le_refl _
  · exact Nat.le_succ _

theorem rollDice_maxRolls (s : GameState) (k : Nat) (E : Nat → Nat → Nat) (e : Nat → Nat) :
    (rollDice s k E e).maxRolls = s.maxRolls := by
  unfold rollDice rollComplete
  split <;> rfl

theorem rollDice_currentRoll (s : GameState) (k : Nat) (E : Nat → Nat → Nat) (e : Nat → Nat)
    (h : rollBlocked s = false) :
    (rollDice s k E e).currentRoll = s.currentRoll + 1 := by
  unfold rollDice rollComplete
  rw [if_neg (by simp [h])]

theorem rollDice_of_blocked (s : GameState) (k : Nat) (E : Nat → Nat → Nat) (e : Nat → Nat)
    (h : rollBlocked s = true) : rollDice s k E e = s := by
  unfold rollDice
  rw [if_pos h]

theorem rollWithinLimit_rollDice (s : GameState) (k : Nat) (E : Nat → Nat → Nat)
    (e : Nat → Nat) (h : rollWithinLimit s = true) :
    rollWithinLimit (rollDice s k E e) = true := by
  cases hb : rollBlocked s
  · unfold rollWithinLimit
    rw [rollDice_maxRolls, rollDice_currentRoll s k E e hb]
    cases hm : s.maxRolls with
    | inf => rfl
    | fin m =>
      have hlt : (s.currentRoll : Int) < m := by
        have := hb
        unfold rollBlocked at this
        rw [hm] at this
        simpa using this
      simp only [decide_eq_true_eq]
      push_cast
      omega
  · rw [rollDice_of_blocked s k E e hb]
    exact h

theorem rollWithinLimit_rollSeq (s : GameState) (h : rollWithinLimit s = true) :
    ∀ rolls, rollWithinLimit (rollSeq s rolls) = true := by
  intro rolls
  induction rolls generalizing s with
  | nil => exact h
  | cons r rest ih =>
    rcases r with ⟨k, E, e⟩
    exact ih (rollDice s k E e) (rollWithinLimit_rollDice s k E e h)

/-- C2, counterexample: starting a new game with a negative custom
max-rolls value yields `maxRolls = -5` while `currentRoll = 0`, so a
state reachable from a new game by a (here: empty) sequence of
`rollDice` calls already has `currentRoll` exceeding `maxRolls`. -/
theorem currentRoll_can_exceed_maxRolls :
    rollWithinLimit (rollSeq (startNewGame negCustomState (fun _ => 0)) []) = false := by
  decide

/-- C2, amended: `currentRoll` is monotonically non-decreasing under
`rollDice`, `rollDice` at `currentRoll = maxRolls` leaves the state
entirely unchanged, and — provided the new game's `maxRolls` is
non-negative (which holds except when a negative custom max-rolls value
was supplied) — `currentRoll` never exceeds `maxRolls` in any state
reachable from the new game by `rollDice` calls. -/
theorem roll_counter_spec (s0 : GameState) (e0 : Nat → Nat)
    (h : maxRollsNonneg (startNewGame s0 e0).maxRolls = true) :
    (∀ rolls, rollWithinLimit (rollSeq (startNewGame s0 e0) rolls) = true) ∧
    (∀ (s : GameState) (k : Nat) (E : Nat → Nat → Nat) (e : Nat → Nat),
        s.currentRoll ≤ (rollDice s k E e).currentRoll) ∧
    (∀ (s : GameState) (k : Nat) (E : Nat → Nat → Nat) (e : Nat → Nat) (m : Int),
        s.maxRolls = MaxRolls.fin m → (s.currentRoll : Int) = m →
        rollDice s k E e = s) := by
  refine ⟨?_, rollDice_currentRoll_mono, ?_⟩
  · have h0 : rollWithinLimit (startNewGame s0 e0) = true := by
      unfold rollWithinLimit
      unfold maxRollsNonneg at h
      have hcur : (startNewGame s0 e0).currentRoll = 0 := rfl
      cases hm : (startNewGame s0 e0).maxRolls with
      | inf => rfl
      | fin m =>
        rw [hm] at h
        rw [hcur]
        simpa using h
    exact rollWithinLimit_rollSeq _ h0
  · intro s k E e m hm hcur
    apply rollDice_of_blocked
    unfold rollBlocked
    rw [hm]
    simp [hcur.ge]

/-- Witness for C2 (amended) at a concrete input: limit enabled with the
fixed choice `3`; after two concrete rolls `currentRoll` is still within
`maxRolls`. -/
theorem roll_counter_spec_witness :
    rollWithinLimit (rollSeq
        (startNewGame { initState with limitEnabled := true } (fun _ => 0))
        [(2, fun _ _ => 1, fun _ => 4), (1, fun _ _ => 0, fun _ => 2)]) = true :=
  (roll_counter_spec { initState with limitEnabled := true } (fun _ => 0) (by decide)).1
    [(2, fun _ _ => 1, fun _ => 4), (1, fun _ _ => 0, fun _ => 2)]

/-- C3, counterexample: with the limit enabled, selection `'other'` and
`customMaxRolls = -5`, the effective max-rolls is `-5`, not the claimed
fallback `10` (`parseInt(-5) || 10` keeps `-5`, which is truthy). -/
theorem negative_custom_not_ten :
    (startNewGame negCustomState (fun _ => 0)).maxRolls = MaxRolls.fin (-5) ∧
      MaxRolls.fin (-5) ≠ MaxRolls.fin 10 :=
  ⟨by decide, by decide⟩

/-- C3, amended: `startNewGame` computes the effective max-rolls as:
unbounded when `limitEnabled` is false; 3 when the selection is `'3'`;
otherwise the parsed `customMaxRolls`, falling back to 10 exactly when
the parse fails (`NaN`) or the parsed value is zero — every other
parsed value, negatives included, is used as-is. -/
theorem effective_max_rolls_spec (s : GameState) (e : Nat → Nat) :
    (s.limitEnabled = false → (startNewGame s e).maxRolls = MaxRolls.inf) ∧
    (s.limitEnabled = true → s.maxRollsSelection = Sel.three →
        (startNewGame s e).maxRolls = MaxRolls.fin 3) ∧
    (s.limitEnabled = true → s.maxRollsSelection = Sel.other → s.customMaxRolls = none →
        (startNewGame s e).maxRolls = MaxRolls.fin 10) ∧
    (s.limitEnabled = true → s.maxRollsSelection = Sel.other → s.customMaxRolls = some 0 →
        (startNewGame s e).maxRolls = MaxRolls.fin 10) ∧
    (∀ v : Int, v ≠ 0 → s.limitEnabled = true → s.maxRollsSelection = Sel.other →
        s.customMaxRolls = some v → (startNewGame s e).maxRolls = MaxRolls.fin v) := by
  have hmax : (startNewGame s e).maxRolls
      = newMaxRolls s.limitEnabled s.maxRollsSelection s.customMaxRolls := rfl
  refine ⟨?_, ?_, ?_, ?_, ?_⟩
  · intro hL; rw [hmax, hL]; rfl
  · intro hL hSel; rw [hmax, hL, hSel]; rfl
  · intro hL hSel hC; rw [hmax, hL, hSel, hC]; rfl
  · intro hL hSel hC; rw [hmax, hL, hSel, hC]; rfl
  · intro v hv hL hSel hC
    rw [hmax, hL, hSel, hC]
    unfold newMaxRolls parseIntOr10
    simp [hv]

/-- Witness for C3 (amended) at a concrete input: a negative custom
value `-5` is used as-is. -/
theorem effective_max_rolls_spec_witness :
    (startNewGame negCustomState (fun _ => 0)).maxRolls = MaxRolls.fin (-5) :=
  (effective_max_rolls_spec negCustomState (fun _ => 0)).2.2.2.2 (-5)
    (by decide) (by decide) (by decide) (by decide)

/-! ## C4 -/

/-- C4: when the roll's timeout fires, the completion callback computes
the authoritative final dice by re-randomizing the non-frozen dice of
the pre-roll snapshot — whatever the dice state is at that moment (any
`midDice`, including any mid-roll reordering, leads to the same final
state) — recomputes the score from that final result, and clears the
rolling-in-progress flag. -/
theorem roll_completion_authoritative (s : GameState) (k : Nat) (E : Nat → Nat → Nat)
    (e : Nat → Nat) (h : rollBlocked s = false) :
    (∀ midDice : List Die,
        rollComplete s.dice s.frozenIds e
          { s with isRolling := true, currentRoll := s.currentRoll + 1, dice := midDice }
          = rollDice s k E e) ∧
    (rollDice s k E e).dice = rerandom s.frozenIds e s.dice ∧
    (rollDice s k E e).score = calculateScore (rerandom s.frozenIds e s.dice) ∧
    (rollDice s k E e).isRolling = false := by
  unfold rollDice
  rw [if_neg (by simp [h])]
  exact ⟨fun midDice => rfl, rfl, rfl, rfl⟩

/-- Witness for C4 at a concrete input: completing from an arbitrary
mid-roll dice state (here a dice list that even has a foreign id)
produces exactly the state `rollDice` produces. -/
theorem roll_completion_authoritative_witness :
    rollComplete exFrozen.dice exFrozen.frozenIds (fun _ => 1)
        { exFrozen with
          isRolling := true,
          currentRoll := exFrozen.currentRoll + 1,
          dice := [Die.mk 9 0] }
      = rollDice exFrozen 2 (fun _ _ => 3) (fun _ => 1) :=
  (roll_completion_authoritative exFrozen 2 (fun _ _ => 3) (fun _ => 1) (by decide)).1
    [Die.mk 9 0]

/-! ## C5 -/

/-- C5: for `numDice` in 1..6 (the only values the dropdown offers),
`startNewGame` produces dice whose ids are exactly `0..numDice-1` in
order, with all values in 0..5, clears the frozen set, resets
`currentRoll` to 0 and stores the score of the fresh dice. -/
theorem new_game_fresh_dice (s : GameState) (e : Nat → Nat)
    (h1 : 1 ≤ s.numDice) (h6 : s.numDice ≤ 6) :
    (startNewGame s e).dice.map Die.id = List.range s.numDice ∧
    (startNewGame s e).dice.length = s.numDice ∧
    (∀ d ∈ (startNewGame s e).dice, d.value ≤ 5) ∧
    (startNewGame s e).frozenIds = ∅ ∧
    (startNewGame s e).currentRoll = 0 ∧
    (startNewGame s e).score = calculateScore (startNewGame s e).dice := by
  refine ⟨?_, ?_, ?_, rfl, rfl, rfl⟩
  · show ((List.range s.numDice).map (fun i => Die.mk i (e i % 6))).map Die.id
      = List.range s.numDice
    simp [Function.comp_def]
  · show ((List.range s.numDice).map (fun i => Die.mk i (e i % 6))).length = s.numDice
    simp
  · intro d hd
    have hd' : d ∈ (List.range s.numDice).map (fun i => Die.mk i (e i % 6)) := hd
    rw [List.mem_map] at hd'
    obtain ⟨i, _, rfl⟩ := hd'
    exact Nat.lt_succ_iff.mp (Nat.mod_lt _ (by decide))

/-- Witness for C5 at the initial configuration (`numDice = 5`). -/
theorem new_game_fresh_dice_witness :
    1 ≤ initState.numDice ∧ initState.numDice ≤ 6 ∧
      (startNewGame initState (fun i => i)).dice.map Die.id = List.range initState.numDice :=
  ⟨by decide, by decide,
    (new_game_fresh_dice initState (fun i => i) (by decide) (by decide)).1⟩

/-! ## C8 -/

/-- C8: `toggleFreeze id` leaves the state unchanged while rolling is in
progress or before the first roll; otherwise it flips membership of
exactly `id` in the frozen set (ids other than `id`, and every other
state field, are untouched). -/
theorem toggleFreeze_spec (s : GameState) (id : Nat) :
    ((s.isRolling = true ∨ s.currentRoll = 0) → toggleFreeze s id = s) ∧
    (s.isRolling = false → s.currentRoll ≠ 0 →
      ((id ∈ (toggleFreeze s id).frozenIds ↔ id ∉ s.frozenIds) ∧
       (∀ j, j ≠ id → (j ∈ (toggleFreeze s id).frozenIds ↔ j ∈ s.frozenIds)) ∧
       (toggleFreeze s id).dice = s.dice ∧
       (toggleFreeze s id).currentRoll = s.currentRoll ∧
       (toggleFreeze s id).maxRolls = s.maxRolls ∧
       (toggleFreeze s id).isRolling = s.isRolling ∧
       (toggleFreeze s id).score = s.score ∧
       (toggleFreeze s id).draggedId = s.draggedId ∧
       (toggleFreeze s id).dragOverId = s.dragOverId)) := by
  constructor
  · intro h
    have hc : (s.isRolling || s.currentRoll == 0) = true := by
      rcases h with h | h <;> simp [h]
    unfold toggleFreeze
    rw [if_pos hc]
  · intro hr hn
    have hc : (s.isRolling || s.currentRoll == 0) = false := by
      simp [hr, hn]
    have htf : toggleFreeze s id = { s with frozenIds :=
        if id ∈ s.frozenIds then s.frozenIds.erase id else insert id s.frozenIds } := by
      unfold toggleFreeze
      rw [if_neg (by simp [hc])]
    rw [htf]
    refine ⟨?_, ?_, rfl, rfl, rfl, rfl, rfl, rfl, rfl⟩
    · by_cases hmem : id ∈ s.frozenIds <;> simp [hmem]
    · intro j hj
      by_cases hmem : id ∈ s.frozenIds <;>
        simp [hmem, Finset.mem_erase, Finset.mem_insert, hj]

/-- Witness for C8 at a concrete state: with `currentRoll = 1` and not
rolling, toggling die 0 adds it to the (empty) frozen set. -/
theorem toggleFreeze_spec_witness :
    0 ∈ (toggleFreeze { initState with currentRoll := 1 } 0).frozenIds ↔
      0 ∉ ({ initState with currentRoll := 1 } : GameState).frozenIds :=
  ((toggleFreeze_spec { initState with currentRoll := 1 } 0).2 rfl (by decide)).1

/-! ## C9 and C10 -/

/-- C9: each of the four option changes (`numDice`, `limitEnabled`,
`maxRollsSelection`, `customMaxRolls`) triggers `startNewGame` via the
dependency-array effect, so afterwards the frozen set is empty and
`currentRoll` is 0. -/
theorem option_change_resets (s : GameState) :
    (∀ (n : Nat) (e : Nat → Nat),
        setNumDice s n e = startNewGame { s with numDice := n } e ∧
        (setNumDice s n e).frozenIds = ∅ ∧ (setNumDice s n e).currentRoll = 0) ∧
    (∀ (b : Bool) (e : Nat → Nat),
        setLimitEnabled s b e = startNewGame { s with limitEnabled := b } e ∧
        (setLimitEnabled s b e).frozenIds = ∅ ∧ (setLimitEnabled s b e).currentRoll = 0) ∧
    (∀ (sel : Sel) (e : Nat → Nat),
        setMaxRollsSelection s sel e = startNewGame { s with maxRollsSelection := sel } e ∧
        (setMaxRollsSelection s sel e).frozenIds = ∅ ∧
        (setMaxRollsSelection s sel e).currentRoll = 0) ∧
    (∀ (c : Option Int) (e : Nat → Nat),
        setCustomMaxRolls s c e = startNewGame { s with customMaxRolls := c } e ∧
        (setCustomMaxRolls s c e).frozenIds = ∅ ∧ (setCustomMaxRolls s c e).currentRoll = 0) :=
  ⟨fun _ _ => ⟨rfl, rfl, rfl⟩, fun _ _ => ⟨rfl, rfl, rfl⟩,
   fun _ _ => ⟨rfl, rfl, rfl⟩, fun _ _ => ⟨rfl, rfl, rfl⟩⟩

/-- C10: changing the theme or toggling the options panel's visibility
is a pure presentation change — it is not in the reset effect's
dependency array and leaves dice, frozen set, `currentRoll`, `maxRolls`
and score unchanged. -/
theorem theme_changes_are_presentation_only (s : GameState) (t : String) (b : Bool) :
    (setTheme s t).dice = s.dice ∧ (setTheme s t).frozenIds = s.frozenIds ∧
    (setTheme s t).currentRoll = s.currentRoll ∧ (setTheme s t).maxRolls = s.maxRolls ∧
    (setTheme s t).score = s.score ∧
    (setShowOptions s b).dice = s.dice ∧ (setShowOptions s b).frozenIds = s.frozenIds ∧
    (setShowOptions s b).currentRoll = s.currentRoll ∧
    (setShowOptions s b).maxRolls = s.maxRolls ∧
    (setShowOptions s b).score = s.score :=
  ⟨rfl, rfl, rfl, rfl, rfl, rfl, rfl, rfl, rfl, rfl⟩

/-! ## C6: drag-and-drop reorder -/

theorem findIdx?_some_spec (p : Die → Bool) :
    ∀ (l : List Die) (n i : Nat), List.findIdx? p l n = some i →
      n ≤ i ∧ i - n < l.length ∧ ∀ x, l[i - n]? = some x → p x = true := by
  intro l
  induction l with
  | nil =>
    intro n i h
    rw [List.findIdx?_nil] at h
    exact absurd h (by simp)
  | cons d l ih =>
    intro n i h
    rw [List.findIdx?_cons] at h
    by_cases hp : p d = true
    · rw [if_pos hp] at h
      have hni : n = i := by injection h
      subst hni
      refine ⟨Nat.le_refl n, by simp, ?_⟩
      intro x hx
      rw [Nat.sub_self] at hx
      have : d = x := by simpa using hx
      rwa [← this]
    · rw [if_neg hp] at h
      obtain ⟨hn, hlen, hx⟩ := ih (n + 1) i h
      have hsub : i - n = (i - (n + 1)) + 1 := by omega
      refine ⟨by omega, ?_, ?_⟩
      · rw [hsub]
        simpa using Nat.succ_lt_succ hlen
      · intro x hxx
        rw [hsub] at hxx
        exact hx x (by simpa using hxx)

theorem jsFindIndex_of_findIdx? (ds : List Die) (id : Nat) (i : Nat)
    (h : ds.findIdx? (fun d => d.id == id) = some i) :
    jsFindIndex ds id = (i : Int) ∧ i < ds.length ∧
      ∀ x, ds[i]? = some x → x.id = id := by
  obtain ⟨-, hlen, hx⟩ := findIdx?_some_spec _ ds 0 i h
  rw [Nat.sub_zero] at hlen
  refine ⟨?_, hlen, fun x hxx => ?_⟩
  · unfold jsFindIndex
    rw [h]
  · have := hx x (by rwa [Nat.sub_zero])
    simpa using this

theorem jsSpliceIndex_coe (len i : Nat) (h : i ≤ len) :
    jsSpliceIndex len (i : Int) = i := by
  unfold jsSpliceIndex
  rw [if_neg (by omega)]
  simp only [Int.toNat_natCast]
  exact Nat.min_eq_left h

theorem take_drop_succ_eq_eraseIdx :
    ∀ (l : List Die) (i : Nat), l.take i ++ l.drop (i + 1) = l.eraseIdx i := by
  intro l
  induction l with
  | nil => intro i; simp
  | cons d l ih =>
    intro i
    cases i with
    | zero => simp
    | succ i =>
      rw [List.eraseIdx_cons_succ, ← ih i]
      simp

theorem take_cons_drop_eq_insertIdx :
    ∀ (l : List Die) (i : Nat) (x : Die), i ≤ l.length →
      l.take i ++ x :: l.drop i = l.insertIdx i x := by
  intro l
  induction l with
  | nil =>
    intro i x h
    have : i = 0 := Nat.le_zero.mp (by simpa using h)
    subst this
    simp
  | cons d l ih =>
    intro i x h
    cases i with
    | zero => simp
    | succ i =>
      rw [List.insertIdx_succ_cons, ← ih i x (by simpa using h)]
      simp

theorem jsSpliceRemove1_coe (ds : List Die) (i : Nat) (h : i < ds.length) :
    jsSpliceRemove1 ds (i : Int) = (ds.eraseIdx i, some ds[i]) := by
  simp only [jsSpliceRemove1, jsSpliceIndex_coe ds.length i (Nat.le_of_lt h),
    take_drop_succ_eq_eraseIdx, List.getElem?_eq_getElem h]

theorem jsSpliceInsert_coe (ds : List Die) (j : Nat) (x : Die) (h : j ≤ ds.length) :
    jsSpliceInsert ds (j : Int) x = ds.insertIdx j x := by
  simp only [jsSpliceInsert, jsSpliceIndex_coe ds.length j h,
    take_cons_drop_eq_insertIdx ds j x h]

theorem getElem?_insertIdx_self (l : List Die) (j : Nat) (x : Die) (h : j ≤ l.length) :
    (l.insertIdx j x)[j]? = some x := by
  rw [← take_cons_drop_eq_insertIdx l j x h]
  rw [List.getElem?_append_right (by simp [Nat.min_eq_left h])]
  simp [Nat.min_eq_left h]

theorem filter_insertIdx_eraseIdx (l : List Die) (i j : Nat) (x : Die) (p : Die → Bool)
    (hi : i < l.length) (hj : j ≤ (l.eraseIdx i).length) (hgx : l[i] = x)
    (hpx : p x = false) :
    ((l.eraseIdx i).insertIdx j x).filter p = l.filter p := by
  rw [← take_cons_drop_eq_insertIdx _ j x hj, List.filter_append, List.filter_cons,
    if_neg (by simp [hpx]), ← List.filter_append, List.take_append_drop]
  rw [← take_drop_succ_eq_eraseIdx, List.filter_append]
  conv_rhs => rw [← List.take_append_drop i l, List.filter_append]
  rw [List.drop_eq_getElem_cons hi, hgx, List.filter_cons, if_neg (by simp [hpx])]

/-- C6: with an active drag source `A` and a different target `B`, both
present in the dice sequence (at indices `i` and `j`), dropping performs
splice-remove-then-insert: the result is `eraseIdx i` followed by
`insertIdx j`, the dragged die `x` ends at `B`'s former index `j`, and
the sequence of all other dice is unchanged; and in every case — move,
drop with no drag source, drop onto the drag source itself — the
transient drag state is cleared (with the dice untouched in the two
no-op cases). -/
theorem handleDrop_spec (s : GameState) (A B : Nat) (i j : Nat) (x : Die)
    (hd : s.draggedId = some A) (hAB : A ≠ B)
    (hiA : s.dice.findIdx? (fun d => d.id == A) = some i)
    (hjB : s.dice.findIdx? (fun d => d.id == B) = some j)
    (hx : s.dice[i]? = some x) :
    (handleDrop s B).dice = (s.dice.eraseIdx i).insertIdx j x ∧
    ((handleDrop s B).dice)[j]? = some x ∧
    (handleDrop s B).dice.filter (fun d => !(d.id == A)) =
      s.dice.filter (fun d => !(d.id == A)) ∧
    (handleDrop s B).draggedId = none ∧ (handleDrop s B).dragOverId = none ∧
    (∀ (s' : GameState) (t : Nat), s'.draggedId = none →
        handleDrop s' t = handleDragEnd s') ∧
    (∀ (s' : GameState) (t : Nat), s'.draggedId = some t →
        handleDrop s' t = handleDragEnd s') ∧
    (∀ s' : GameState, (handleDragEnd s').dice = s'.dice ∧
        (handleDragEnd s').draggedId = none ∧ (handleDragEnd s').dragOverId = none) := by
  obtain ⟨hiEq, hiLen, hiId⟩ := jsFindIndex_of_findIdx? s.dice A i hiA
  obtain ⟨hjEq, hjLen, hjId⟩ := jsFindIndex_of_findIdx? s.dice B j hjB
  have hxId : x.id = A := hiId x hx
  have hxget : s.dice[i] = x := by
    have := List.getElem?_eq_getElem hiLen
    rw [hx] at this
    exact (Option.some.injEq _ _ ▸ this.symm :)
  have hjLen' : j ≤ (s.dice.eraseIdx i).length := by
    rw [List.length_eraseIdx_of_lt hiLen]
    omega
  have hmain : handleDrop s B =
      handleDragEnd { s with dice := (s.dice.eraseIdx i).insertIdx j x } := by
    simp only [handleDrop, hd]
    rw [if_neg hAB]
    simp only [hiEq, hjEq, jsSpliceRemove1_coe s.dice i hiLen, hxget,
      jsSpliceInsert_coe _ j x hjLen']
  refine ⟨by rw [hmain]; rfl, ?_, ?_, by rw [hmain]; rfl, by rw [hmain]; rfl, ?_, ?_, ?_⟩
  · rw [hmain]
    exact getElem?_insertIdx_self _ j x hjLen'
  · rw [hmain]
    exact filter_insertIdx_eraseIdx s.dice i j x _ hiLen hjLen' hxget (by simp [hxId])
  · intro s' t h
    unfold handleDrop
    rw [h]
  · intro s' t h
    unfold handleDrop
    rw [h]
    simp
  · intro s'
    exact ⟨rfl, rfl, rfl⟩

/-- Witness for C6 at a concrete input: dropping die 0 onto die 2 yields
the order `[1, 2, 0]`. -/
theorem handleDrop_spec_witness :
    (handleDrop exDrag 2).dice = (exDrag.dice.eraseIdx 0).insertIdx 2 (Die.mk 0 1) :=
  (handleDrop_spec exDrag 0 2 0 2 (Die.mk 0 1) (by decide) (by decide) (by decide)
    (by decide) (by decide)).1

/-! ## C7: the stored score -/

theorem calculateScore_foldl (ds : List Die) :
    ∀ a : Nat, ds.foldl (fun sum d => sum + d.value + 1) a
      = a + (ds.map (fun d => d.value + 1)).sum := by
  induction ds with
  | nil => intro a; simp
  | cons d ds ih =>
    intro a
    simp only [List.foldl_cons, List.map_cons, List.sum_cons, ih (a + d.value + 1)]
    omega

theorem calculateScore_eq_sum (ds : List Die) :
    calculateScore ds = (ds.map (fun d => d.value + 1)).sum := by
  simpa using calculateScore_foldl ds 0

theorem calculateScore_append (l₁ l₂ : List Die) :
    calculateScore (l₁ ++ l₂) = calculateScore l₁ + calculateScore l₂ := by
  simp [calculateScore_eq_sum]

theorem calculateScore_cons (d : Die) (l : List Die) :
    calculateScore (d :: l) = d.value + 1 + calculateScore l := by
  simp [calculateScore_eq_sum]

theorem calculateScore_jsSpliceInsert (ds : List Die) (start : Int) (x : Die) :
    calculateScore (jsSpliceInsert ds start x) = calculateScore ds + (x.value + 1) := by
  unfold jsSpliceInsert
  rw [calculateScore_append, calculateScore_cons]
  conv_rhs => rw [← List.take_append_drop (jsSpliceIndex ds.length start) ds,
    calculateScore_append]
  omega

theorem jsSpliceRemove1_snd (ds : List Die) (start : Int) :
    (jsSpliceRemove1 ds start).2 = ds[jsSpliceIndex ds.length start]? := rfl

theorem jsSpliceRemove1_fst (ds : List Die) (start : Int) :
    (jsSpliceRemove1 ds start).1 =
      ds.take (jsSpliceIndex ds.length start) ++
        ds.drop (jsSpliceIndex ds.length start + 1) := rfl

theorem calculateScore_jsSpliceRemove1_some (ds : List Die) (start : Int) (x : Die)
    (h2 : (jsSpliceRemove1 ds start).2 = some x) :
    calculateScore ds = calculateScore (jsSpliceRemove1 ds start).1 + (x.value + 1) := by
  rw [jsSpliceRemove1_snd] at h2
  have h : jsSpliceIndex ds.length start < ds.length := by
    by_contra hc
    rw [List.getElem?_eq_none (Nat.le_of_not_lt hc)] at h2
    exact Option.noConfusion h2
  have hget : ds[jsSpliceIndex ds.length start] = x := by
    rw [List.getElem?_eq_getElem h] at h2
    exact Option.some.inj h2
  rw [jsSpliceRemove1_fst]
  conv_lhs => rw [← List.take_append_drop (jsSpliceIndex ds.length start) ds]
  rw [List.drop_eq_getElem_cons h, hget]
  rw [calculateScore_append, calculateScore_cons, calculateScore_append]
  omega

theorem calculateScore_jsSpliceRemove1_none (ds : List Die) (start : Int)
    (h2 : (jsSpliceRemove1 ds start).2 = none) :
    calculateScore ds = calculateScore (jsSpliceRemove1 ds start).1 := by
  rw [jsSpliceRemove1_snd] at h2
  have h : ds.length ≤ jsSpliceIndex ds.length start := by
    by_contra hc
    rw [List.getElem?_eq_getElem (Nat.lt_of_not_le hc)] at h2
    exact Option.noConfusion h2
  rw [jsSpliceRemove1_fst, List.take_of_length_le h,
    List.drop_eq_nil_of_le (by omega)]
  simp

theorem calculateScore_handleDrop (s : GameState) (t : Nat) :
    calculateScore (handleDrop s t).dice = calculateScore s.dice := by
  cases hd : s.draggedId with
  | none =>
    simp only [handleDrop, hd]
    rfl
  | some dId =>
    simp only [handleDrop, hd]
    by_cases hdt : dId = t
    · rw [if_pos hdt]
      rfl
    · rw [if_neg hdt]
      cases h2 : (jsSpliceRemove1 s.dice (jsFindIndex s.dice dId)).2 with
      | none =>
        show calculateScore (jsSpliceRemove1 s.dice (jsFindIndex s.dice dId)).1
          = calculateScore s.dice
        exact (calculateScore_jsSpliceRemove1_none s.dice (jsFindIndex s.dice dId) h2).symm
      | some item =>
        have hrem := calculateScore_jsSpliceRemove1_some s.dice (jsFindIndex s.dice dId)
          item h2
        show calculateScore (jsSpliceInsert (jsSpliceRemove1 s.dice (jsFindIndex s.dice dId)).1
            (jsFindIndex s.dice t) item) = calculateScore s.dice
        rw [calculateScore_jsSpliceInsert]
        omega

theorem handleDrop_score (s : GameState) (t : Nat) :
    (handleDrop s t).score = s.score := by
  cases hd : s.draggedId with
  | none =>
    simp only [handleDrop, hd]
    rfl
  | some dId =>
    simp only [handleDrop, hd]
    by_cases hdt : dId = t
    · rw [if_pos hdt]
      rfl
    · rw [if_neg hdt]
      rfl

theorem scoreInv_startNewGame (s : GameState) (e : Nat → Nat) :
    scoreInv (startNewGame s e) := rfl

theorem scoreInv_applyOp (s : GameState) (op : Op) (h : scoreInv s) :
    scoreInv (applyOp s op) := by
  cases op with
  | roll k E e =>
    show scoreInv (rollDice s k E e)
    unfold rollDice rollComplete
    split
    · exact h
    · rfl
  | freeze id =>
    show scoreInv (toggleFreeze s id)
    unfold toggleFreeze
    split
    · exact h
    · exact h
  | dragStart id => exact h
  | dragEnter id =>
    show scoreInv (handleDragEnter s id)
    unfold handleDragEnter
    split
    · exact h
    · exact h
  | dragEnd => exact h
  | drop t =>
    show scoreInv (handleDrop s t)
    unfold scoreInv
    rw [handleDrop_score, calculateScore_handleDrop]
    exact h
  | newGame e => exact scoreInv_startNewGame s e
  | chNumDice n e => exact scoreInv_startNewGame _ e
  | chLimitEnabled b e => exact scoreInv_startNewGame _ e
  | chMaxRollsSelection sel e => exact scoreInv_startNewGame _ e
  | chCustomMaxRolls c e => exact scoreInv_startNewGame _ e
  | chTheme t => exact h
  | chShowOptions b => exact h

theorem scoreInv_run (s : GameState) (h : scoreInv s) :
    ∀ ops : List Op, scoreInv (run s ops) := by
  intro ops
  induction ops generalizing s with
  | nil => exact h
  | cons op rest ih => exact ih (applyOp s op) (scoreInv_applyOp s op h)

/-- C7: `calculateScore` is the sum over all dice of `value + 1`; in
every state reachable from a new game by any sequence of events the
stored score equals `calculateScore` of the stored dice; and for dice
values `[0, 5, 2]` the score is `1 + 6 + 3 = 10`. -/
theorem score_is_sum_of_faces (s0 : GameState) (e : Nat → Nat) (ops : List Op) :
    (∀ ds, calculateScore ds = (ds.map (fun d => d.value + 1)).sum) ∧
    (run (startNewGame s0 e) ops).score
      = calculateScore ((run (startNewGame s0 e) ops).dice) ∧
    calculateScore [Die.mk 0 0, Die.mk 1 5, Die.mk 2 2] = 10 :=
  ⟨calculateScore_eq_sum, scoreInv_run (startNewGame s0 e) (scoreInv_startNewGame s0 e) ops,
    by decide⟩
